import Mathlib

/-!
# Verification of the CernAtlasSBOM dependency-extraction and versioning core

Shallow embedding of the Python sources of the `Tully9/CernAtlasSBOM`
repository, together with theorems settling the specification claims about
the signature function, the version-directory numbering, the requirement
and build-manifest parsers, the missing-package reconciliation and the
`Dependency` identity invariant.

Conventions of the embedding:
* Python strings are Lean `String`; line- and character-level processing is
  done on `List Char` (`String.data`) so that concrete instances evaluate
  inside the kernel.
* A Python file that may be absent is an `Option` input: `none` models the
  `os.path.exists`/`Path.exists` check failing.
* Python `dict`s whose only observed operations are key membership,
  item insertion (last write wins, position preserved) and `sorted(items())`
  are modelled as association lists in insertion order.
* Regular expressions from the sources are hand-translated into
  deterministic scanners; each translation documents the regex it embeds.
-/

namespace CernAtlasSBOM

/-! ## Python string primitives -/

/-- Python `str.strip()` restricted to its whitespace default, on a char list:
drop leading and trailing whitespace. -/
def pyStrip (l : List Char) : List Char :=
  ((l.dropWhile Char.isWhitespace).reverse.dropWhile Char.isWhitespace).reverse

/-- Right-trim whitespace only (used when a regex consumes `\s*` before a
closing delimiter). -/
def rtrimWs (l : List Char) : List Char :=
  (l.reverse.dropWhile Char.isWhitespace).reverse

/-- Python `str.split('\n')` on a char list. -/
def splitLines (l : List Char) : List (List Char) :=
  match l with
  | [] => [[]]
  | c :: cs =>
    let rest := splitLines cs
    if c = '\n' then [] :: rest
    else match rest with
      | [] => [[c]]
      | r :: rs => (c :: r) :: rs

/-- `List.isPrefixOf` specialised to `Char` with propositional equality,
modelling a literal regex fragment or `str.startswith`. -/
def startsWithChars : List Char → List Char → Bool
  | [], _ => true
  | _ :: _, [] => false
  | p :: ps, c :: cs => p = c && startsWithChars ps cs

/-- Strip a literal prefix, returning the remainder on success. -/
def stripPrefixChars : List Char → List Char → Option (List Char)
  | [], l => some l
  | _ :: _, [] => none
  | p :: ps, c :: cs => if p = c then stripPrefixChars ps cs else none

/-! ## Sorting (Python `sorted` on lists of string pairs)

Python `sorted` over `(str, str)` tuples orders them lexicographically by
code points.  Its output is the unique sorted permutation of the input, so
any correct sorting algorithm over the same linear order computes it; we use
`List.insertionSort` from Mathlib over the lexicographic pair order. -/

/-- Strict code-point lexicographic order on char lists: how Python `<`
compares `str` values.  Kernel-reducible, unlike `String.ltb`. -/
def lexLt : List Char → List Char → Bool
  | [], [] => false
  | [], _ :: _ => true
  | _ :: _, [] => false
  | a :: as, b :: bs => if a = b then lexLt as bs else decide (a < b)

/-- Non-strict code-point lexicographic order (Python `str` `<=`). -/
def lexLe (as bs : List Char) : Bool := lexLt as bs || decide (as = bs)

theorem lexLt_irrefl : ∀ as, lexLt as as = false
  | [] => rfl
  | a :: as => by simp [lexLt, lexLt_irrefl as]

theorem lexLt_asymm : ∀ {as bs}, lexLt as bs = true → lexLt bs as = false
  | [], [], h => by simp [lexLt] at h
  | [], _ :: _, _ => rfl
  | _ :: _, [], h => by simp [lexLt] at h
  | a :: as, b :: bs, h => by
    by_cases hab : a = b
    · subst hab
      simp only [lexLt, if_pos rfl] at h ⊢
      exact lexLt_asymm h
    · simp only [lexLt, if_neg hab, decide_eq_true_eq] at h
      simp only [lexLt, if_neg (Ne.symm hab), decide_eq_false_iff_not]
      exact lt_asymm h

theorem lexLt_trans : ∀ {as bs cs},
    lexLt as bs = true → lexLt bs cs = true → lexLt as cs = true
  | [], [], _, h, _ => by simp [lexLt] at h
  | [], _ :: _, [], _, h => by simp [lexLt] at h
  | [], _ :: _, _ :: _, _, _ => rfl
  | _ :: _, [], _, h, _ => by simp [lexLt] at h
  | _ :: _, _ :: _, [], _, h => by simp [lexLt] at h
  | a :: as, b :: bs, c :: cs, h1, h2 => by
    by_cases hab : a = b <;> by_cases hbc : b = c
    · subst hab; subst hbc
      simp only [lexLt, if_pos rfl] at h1 h2 ⊢
      exact lexLt_trans h1 h2
    · subst hab
      simpa only [lexLt, if_neg hbc] using h2
    · subst hbc
      simpa only [lexLt, if_neg hab] using h1
    · simp only [lexLt, if_neg hab, decide_eq_true_eq] at h1
      simp only [lexLt, if_neg hbc, decide_eq_true_eq] at h2
      have hac : a < c := lt_trans h1 h2
      simp [lexLt, if_neg (ne_of_lt hac), hac]

theorem lexLt_connex : ∀ {as bs}, as ≠ bs →
    lexLt as bs = true ∨ lexLt bs as = true
  | [], [], h => absurd rfl h
  | [], _ :: _, _ => Or.inl rfl
  | _ :: _, [], _ => Or.inr rfl
  | a :: as, b :: bs, h => by
    by_cases hab : a = b
    · subst hab
      have : as ≠ bs := fun e => h (by rw [e])
      simpa only [lexLt, if_pos rfl] using lexLt_connex this
    · rcases lt_or_gt_of_ne hab with hlt | hgt
      · exact Or.inl (by simp [lexLt, hab, hlt])
      · exact Or.inr (by simp [lexLt, Ne.symm hab, hgt])

/-- The tuple order Python `sorted` uses on `(str, str)` pairs:
lexicographic on the pair, code-point lexicographic on each string. -/
def pairLe (a b : String × String) : Bool :=
  lexLt a.1.data b.1.data ||
    (decide (a.1.data = b.1.data) && lexLe a.2.data b.2.data)

/-- `pairLe` as a relation, for Mathlib's sorting lemmas. -/
def pairLE (a b : String × String) : Prop := pairLe a b = true

instance : DecidableRel pairLE := fun a b => by
  unfold pairLE; infer_instance

theorem string_data_inj {a b : String} (h : a.data = b.data) : a = b := by
  cases a; cases b; exact congrArg String.mk h

theorem pairLE_iff {a b : String × String} :
    pairLE a b ↔ lexLt a.1.data b.1.data = true ∨
      (a.1.data = b.1.data ∧ lexLe a.2.data b.2.data = true) := by
  simp [pairLE, pairLe, Bool.or_eq_true, Bool.and_eq_true]

theorem lexLe_iff {as bs : List Char} :
    lexLe as bs = true ↔ lexLt as bs = true ∨ as = bs := by
  simp [lexLe, Bool.or_eq_true]

instance : IsTotal (String × String) pairLE where
  total a b := by
    by_cases h1 : a.1.data = b.1.data
    · by_cases h2 : a.2.data = b.2.data
      · exact Or.inl (pairLE_iff.mpr (Or.inr ⟨h1, lexLe_iff.mpr (Or.inr h2)⟩))
      · rcases lexLt_connex h2 with h | h
        · exact Or.inl (pairLE_iff.mpr (Or.inr ⟨h1, lexLe_iff.mpr (Or.inl h)⟩))
        · exact Or.inr (pairLE_iff.mpr (Or.inr ⟨h1.symm, lexLe_iff.mpr (Or.inl h)⟩))
    · rcases lexLt_connex h1 with h | h
      · exact Or.inl (pairLE_iff.mpr (Or.inl h))
      · exact Or.inr (pairLE_iff.mpr (Or.inl h))

instance : IsTrans (String × String) pairLE where
  trans a b c hab hbc := by
    rcases pairLE_iff.mp hab with h1 | ⟨e1, l1⟩
    · rcases pairLE_iff.mp hbc with h2 | ⟨e2, l2⟩
      · exact pairLE_iff.mpr (Or.inl (lexLt_trans h1 h2))
      · exact pairLE_iff.mpr (Or.inl (e2 ▸ h1))
    · rcases pairLE_iff.mp hbc with h2 | ⟨e2, l2⟩
      · exact pairLE_iff.mpr (Or.inl (e1 ▸ h2))
      · refine pairLE_iff.mpr (Or.inr ⟨e1.trans e2, ?_⟩)
        rcases lexLe_iff.mp l1 with h | h
        · rcases lexLe_iff.mp l2 with h' | h'
          · exact lexLe_iff.mpr (Or.inl (lexLt_trans h h'))
          · exact lexLe_iff.mpr (Or.inl (h' ▸ h))
        · exact lexLe_iff.mpr (h ▸ lexLe_iff.mp l2)

instance : IsAntisymm (String × String) pairLE where
  antisymm a b hab hba := by
    rcases pairLE_iff.mp hab with h1 | ⟨e1, l1⟩
    · rcases pairLE_iff.mp hba with h2 | ⟨e2, l2⟩
      · have h3 := lexLt_asymm h1
        rw [h2] at h3
        exact Bool.noConfusion h3
      · rw [e2, lexLt_irrefl] at h1
        exact Bool.noConfusion h1
    · rcases pairLE_iff.mp hba with h2 | ⟨e2, l2⟩
      · rw [e1, lexLt_irrefl] at h2
        exact Bool.noConfusion h2
      · have hfst : a.1 = b.1 := string_data_inj e1
        have hsnd : a.2 = b.2 := by
          rcases lexLe_iff.mp l1 with h | h
          · rcases lexLe_iff.mp l2 with h' | h'
            · have h3 := lexLt_asymm h
              rw [h'] at h3
              exact Bool.noConfusion h3
            · exact string_data_inj h'.symm
          · exact string_data_inj h
        exact Prod.ext hfst hsnd

/-- Python `sorted` on a list of string pairs. -/
def sortPairs (l : List (String × String)) : List (String × String) :=
  l.insertionSort pairLE

theorem sortPairs_sorted (l : List (String × String)) :
    List.Sorted pairLE (sortPairs l) :=
  List.sorted_insertionSort pairLE l

theorem sortPairs_perm (l : List (String × String)) : (sortPairs l).Perm l :=
  List.perm_insertionSort pairLE l

/-- Two permutation-equal lists have the same `sorted` image: the sorted
permutation is unique for an antisymmetric total order. -/
theorem sortPairs_eq_of_perm {l l' : List (String × String)} (h : l.Perm l') :
    sortPairs l = sortPairs l' :=
  List.eq_of_perm_of_sorted
    (((sortPairs_perm l).trans h).trans (sortPairs_perm l').symm)
    (sortPairs_sorted l) (sortPairs_sorted l')

/-! ## SBOM document model and the signature function

Embeds `get_sbom_signature` from `src/backend/Athena/version_sbom.py`
(lines 95–123); the copies in `src/backend/StatAnalysis/version_sbom.py`
and `src/backend/app.py` are textually identical. -/

/-- One entry of the manifest's `components` list.  `comp.get('name', '')`
on a JSON object whose key may be absent is `name.getD ""`. -/
structure SbomComponent where
  name : Option String
  version : Option String
deriving DecidableEq

/-- One entry of `metadata.properties`. -/
structure SbomProperty where
  name : Option String
  value : Option String
deriving DecidableEq

/-- The manifest `metadata` block: the generation timestamp written by the
CycloneDX encoder plus the free-form properties list. -/
structure SbomMetadata where
  timestamp : Option String
  properties : List SbomProperty
deriving DecidableEq

/-- The fields of the manifest JSON document that `get_sbom_signature`
reads, together with the volatile generation timestamp. -/
structure SbomData where
  components : List SbomComponent
  metadata : SbomMetadata
deriving DecidableEq

/-- `props_dict[k] = v` on an insertion-ordered association list: overwrite
in place if the key exists, else append (CPython dict semantics). -/
def dictInsert (acc : List (String × String)) (k v : String) :
    List (String × String) :=
  if acc.any (fun kv => kv.1 = k) then
    acc.map (fun kv => if kv.1 = k then (k, v) else kv)
  else acc ++ [(k, v)]

/-- The `props_dict` loop of `get_sbom_signature`: fold the properties list
into a dict keyed by `prop.get('name','')`, later entries overwriting. -/
def propsDict (props : List SbomProperty) : List (String × String) :=
  props.foldl (fun acc p => dictInsert acc (p.name.getD "") (p.value.getD "")) []

/-- The signature value: Python returns a tuple
`(('components', …), ('properties', …))` optionally extended with
`('build_info', …)`. -/
structure SbomSignature where
  components : List (String × String)
  properties : List (String × String)
  build_info : Option (List (String × String))
deriving DecidableEq

/-- `get_sbom_signature(sbom_data, build_info)`.  The optional `build_info`
dict is an association list; `[]` models both `None` and the empty dict,
which Python's `if build_info:` treats alike. -/
def get_sbom_signature (sbom_data : SbomData)
    (build_info : List (String × String)) : SbomSignature where
  components := sortPairs (sbom_data.components.map fun c =>
    (c.name.getD "", c.version.getD ""))
  properties := sortPairs (propsDict sbom_data.metadata.properties)
  build_info := if build_info.isEmpty then none else some (sortPairs build_info)

/-! ### Signature lemmas -/

theorem dictInsert_of_fresh (acc : List (String × String)) (k v : String)
    (h : ∀ kv ∈ acc, kv.1 ≠ k) : dictInsert acc k v = acc ++ [(k, v)] := by
  unfold dictInsert
  rw [if_neg]
  simp only [List.any_eq_true, decide_eq_true_eq, not_exists, not_and]
  intro kv hkv
  exact h kv hkv

/-- When all property names are fresh with respect to the accumulator and
pairwise distinct, the `props_dict` fold is a plain append of the name/value
pairs. -/
theorem foldl_dictInsert_fresh :
    ∀ (props : List SbomProperty) (acc : List (String × String)),
    (props.map fun p => p.name.getD "").Nodup →
    (∀ p ∈ props, ∀ kv ∈ acc, kv.1 ≠ p.name.getD "") →
    props.foldl (fun acc p => dictInsert acc (p.name.getD "") (p.value.getD "")) acc
      = acc ++ props.map (fun p => (p.name.getD "", p.value.getD ""))
  | [], acc, _, _ => by simp
  | p :: ps, acc, hnodup, hfresh => by
    simp only [List.map_cons, List.nodup_cons] at hnodup
    rw [List.foldl_cons,
      dictInsert_of_fresh acc _ _ (fun kv hkv => hfresh p (by simp) kv hkv),
      foldl_dictInsert_fresh ps _ hnodup.2 ?_]
    · simp
    · intro q hq kv hkv
      rcases List.mem_append.mp hkv with h | h
      · exact hfresh q (by simp [hq]) kv h
      · simp only [List.mem_singleton] at h
        subst h
        intro e
        have : p.name.getD "" = q.name.getD "" := e
        exact hnodup.1 (this ▸ List.mem_map_of_mem _ hq)

/-- With pairwise-distinct (defaulted) property names, `props_dict` is just
the list of name/value pairs. -/
theorem propsDict_eq_map (props : List SbomProperty)
    (h : (props.map fun p => p.name.getD "").Nodup) :
    propsDict props = props.map (fun p => (p.name.getD "", p.value.getD "")) := by
  simpa using foldl_dictInsert_fresh props [] h (by simp)

/-! ### Claim theorems C2 and C3 -/

/-- C2 (counterexample): permutation invariance of `get_sbom_signature`
fails when two metadata properties share a name: the `props_dict` loop keeps
the last write, so the two orders of `{name: "a", value: "1"}` and
`{name: "a", value: "2"}` give different signatures even though the
properties lists are permutations of each other and the components agree. -/
theorem get_sbom_signature_perm_counterexample :
    let d₁ : SbomData := ⟨[], ⟨none, [⟨some "a", some "1"⟩, ⟨some "a", some "2"⟩]⟩⟩
    let d₂ : SbomData := ⟨[], ⟨none, [⟨some "a", some "2"⟩, ⟨some "a", some "1"⟩]⟩⟩
    d₁.components.Perm d₂.components ∧
    d₁.metadata.properties.Perm d₂.metadata.properties ∧
    get_sbom_signature d₁ [] ≠ get_sbom_signature d₂ [] := by
  refine ⟨List.Perm.refl _, List.Perm.swap _ _ _, ?_⟩
  decide

/-- C2 (amended): for every manifest document, every permutation of its
components list and every permutation of its `metadata.properties` list *in
which no two properties share a (defaulted) name*, `get_sbom_signature`
returns the same signature as on the unpermuted document, with the same
optional `build_info` argument. -/
theorem get_sbom_signature_perm_invariant (d d' : SbomData)
    (bi : List (String × String))
    (hc : d.components.Perm d'.components)
    (hp : d.metadata.properties.Perm d'.metadata.properties)
    (hnodup : (d.metadata.properties.map fun p => p.name.getD "").Nodup) :
    get_sbom_signature d bi = get_sbom_signature d' bi := by
  have hnodup' : (d'.metadata.properties.map fun p => p.name.getD "").Nodup :=
    ((hp.map _).nodup_iff).mp hnodup
  have hcomp : sortPairs (d.components.map fun c => (c.name.getD "", c.version.getD ""))
      = sortPairs (d'.components.map fun c => (c.name.getD "", c.version.getD "")) :=
    sortPairs_eq_of_perm (hc.map _)
  have hprops : sortPairs (propsDict d.metadata.properties)
      = sortPairs (propsDict d'.metadata.properties) := by
    rw [propsDict_eq_map _ hnodup, propsDict_eq_map _ hnodup']
    exact sortPairs_eq_of_perm (hp.map _)
  simp only [get_sbom_signature, hcomp, hprops]

/-- C2 (witness): the amended permutation-invariance theorem applied to a
concrete document and a concrete permutation of it. -/
theorem get_sbom_signature_perm_invariant_witness :
    get_sbom_signature
        ⟨[⟨some "numpy", some "1.26.4"⟩, ⟨some "ROOT", some "6.30"⟩],
         ⟨some "2024-01-01", [⟨some "Athena", some "24.0"⟩, ⟨some "src", some "log"⟩]⟩⟩
        [("C Compiler", "GNU")]
      = get_sbom_signature
        ⟨[⟨some "ROOT", some "6.30"⟩, ⟨some "numpy", some "1.26.4"⟩],
         ⟨some "2024-01-01", [⟨some "src", some "log"⟩, ⟨some "Athena", some "24.0"⟩]⟩⟩
        [("C Compiler", "GNU")] :=
  get_sbom_signature_perm_invariant _ _ _
    (List.Perm.swap _ _ _) (List.Perm.swap _ _ _) (by decide)

/-- C3: `get_sbom_signature` never reads the generation-timestamp field of
the metadata block, so two documents differing only in that field (with the
same optional build-info) get equal signatures. -/
theorem get_sbom_signature_timestamp_noninterference
    (d : SbomData) (t₁ t₂ : Option String) (bi : List (String × String)) :
    get_sbom_signature ⟨d.components, ⟨t₁, d.metadata.properties⟩⟩ bi
      = get_sbom_signature ⟨d.components, ⟨t₂, d.metadata.properties⟩⟩ bi := rfl

/-! ## Version-directory numbering

Embeds `get_next_version_number` from `src/backend/Athena/version_sbom.py`
(lines 125–145); `src/backend/StatAnalysis/version_sbom.py` (lines 43–63)
and `src/backend/app.py` (lines 59–79) are textually identical. -/

/-- The digit tail of Python `int()` on ASCII input: digits optionally
separated by single underscores (no leading, trailing or doubled
underscore), accumulating the value. -/
def pyIntDigits : Nat → List Char → Option Nat
  | acc, [] => some acc
  | acc, '_' :: c :: cs =>
      if c.isDigit then pyIntDigits (acc * 10 + (c.toNat - 48)) cs else none
  | acc, c :: cs =>
      if c.isDigit then pyIntDigits (acc * 10 + (c.toNat - 48)) cs else none

/-- A nonempty Python digit run: first char must be a digit. -/
def pyIntCore : List Char → Option Nat
  | [] => none
  | c :: cs => if c.isDigit then pyIntDigits (c.toNat - 48) cs else none

/-- Python `int(str)` on ASCII input: strip whitespace, optional `+`/`-`
sign, then a digit run; `none` models `ValueError`. -/
def pyInt (s : List Char) : Option Int :=
  match pyStrip s with
  | '-' :: rest => (pyIntCore rest).map (fun n => -(n : Int))
  | '+' :: rest => (pyIntCore rest).map (fun n => (n : Int))
  | rest => (pyIntCore rest).map (fun n => (n : Int))

/-- One entry of `sboms_path.iterdir()`: its name and whether it is a
directory. -/
structure DirEntry where
  name : String
  isDir : Bool

/-- The loop body of `get_next_version_number`: an entry contributes a
number when it is a directory, its name starts with `'v'`, and `int()`
parses the remainder (`item.name[1:]`); otherwise the `except ValueError:
continue` path contributes nothing. -/
def versionNumberOf (item : DirEntry) : Option Int :=
  if item.isDir then
    match item.name.data with
    | 'v' :: rest => pyInt rest
    | _ => none
  else none

/-- The `version_dirs` list accumulated by `get_next_version_number`. -/
def versionNumbers (entries : List DirEntry) : List Int :=
  entries.filterMap versionNumberOf

/-- `get_next_version_number(sboms_dir)`. `none` models
`not sboms_path.exists()`; `max(version_dirs) + 1` is the nonempty fold. -/
def get_next_version_number (sboms_dir : Option (List DirEntry)) : Int :=
  match sboms_dir with
  | none => 1
  | some entries =>
    match versionNumbers entries with
    | [] => 1
    | v :: vs => vs.foldl max v + 1

theorem foldl_max_mem : ∀ (vs : List Int) (v : Int), vs.foldl max v ∈ v :: vs
  | [], v => by simp
  | w :: vs, v => by
    have ih := foldl_max_mem vs (max v w)
    simp only [List.foldl_cons]
    rcases List.mem_cons.mp ih with h | h
    · rcases max_choice v w with e | e
      · rw [h, e]; exact List.mem_cons_self _ _
      · rw [h, e]; exact List.mem_cons_of_mem _ (List.mem_cons_self _ _)
    · exact List.mem_cons_of_mem _ (List.mem_cons_of_mem _ h)

theorem le_foldl_max_init : ∀ (vs : List Int) (v : Int), v ≤ vs.foldl max v
  | [], v => le_refl v
  | w :: vs, v => le_trans (le_max_left v w) (le_foldl_max_init vs (max v w))

theorem foldl_max_le_of_mem : ∀ (vs : List Int) (v : Int), ∀ x ∈ vs, x ≤ vs.foldl max v
  | [], _, x, hx => absurd hx (List.not_mem_nil x)
  | w :: vs, v, x, hx => by
    simp only [List.foldl_cons]
    rcases List.mem_cons.mp hx with e | hx'
    · rw [e]; exact le_trans (le_max_right v w) (le_foldl_max_init vs (max v w))
    · exact foldl_max_le_of_mem vs (max v w) x hx'

theorem foldl_max_ub (vs : List Int) (v : Int) : ∀ x ∈ v :: vs, x ≤ vs.foldl max v := by
  intro x hx
  rcases List.mem_cons.mp hx with e | h
  · rw [e]; exact le_foldl_max_init vs v
  · exact foldl_max_le_of_mem vs v x h

/-! ### Claim theorem C4 -/

/-- C4: `get_next_version_number` returns 1 when the versions directory is
absent or when no entry is a directory named `'v'` followed by an
`int()`-parseable suffix; otherwise it returns the maximum parsed suffix
plus one (entries with non-numeric suffix are ignored by the
`except ValueError: continue` path, i.e. contribute nothing to
`versionNumbers`); in particular existing directories `v1, v2, v7` give 8. -/
theorem get_next_version_number_spec :
    get_next_version_number none = 1 ∧
    (∀ entries : List DirEntry, (∀ e ∈ entries, versionNumberOf e = none) →
      get_next_version_number (some entries) = 1) ∧
    (∀ (entries : List DirEntry) (m : Int), m ∈ versionNumbers entries →
      (∀ x ∈ versionNumbers entries, x ≤ m) →
      get_next_version_number (some entries) = m + 1) ∧
    get_next_version_number
      (some [⟨"v1", true⟩, ⟨"v2", true⟩, ⟨"v7", true⟩]) = 8 := by
  refine ⟨rfl, ?_, ?_, by decide⟩
  · intro entries h
    have : versionNumbers entries = [] := by
      simpa [versionNumbers, List.filterMap_eq_nil_iff] using h
    simp [get_next_version_number, this]
  · intro entries m hm hub
    obtain ⟨v, vs, hvn⟩ : ∃ v vs, versionNumbers entries = v :: vs := by
      cases h : versionNumbers entries with
      | nil => rw [h] at hm; cases hm
      | cons v vs => exact ⟨v, vs, rfl⟩
    have hfold_mem : vs.foldl max v ∈ versionNumbers entries := by
      rw [hvn]; exact foldl_max_mem vs v
    have h₁ : vs.foldl max v ≤ m := hub _ hfold_mem
    have h₂ : m ≤ vs.foldl max v := by
      rw [hvn] at hm
      exact foldl_max_ub vs v m hm
    simp only [get_next_version_number, hvn]
    rw [le_antisymm h₁ h₂]

/-- C4 (witness): the characterisation applied at the concrete listing
`v1, v2, v7` with maximum 7. -/
theorem get_next_version_number_spec_witness :
    get_next_version_number
      (some [⟨"v1", true⟩, ⟨"v2", true⟩, ⟨"v7", true⟩]) = 7 + 1 :=
  get_next_version_number_spec.2.2.1
    [⟨"v1", true⟩, ⟨"v2", true⟩, ⟨"v7", true⟩] 7 (by decide) (by decide)

/-! ### Claim theorem C10 -/

/-- C10: the version-directory scan accepts any name `'v' ++ s` where
Python `int(s)` parses, including sign-prefixed numbers: a versions
directory whose only subdirectory is `v-3` makes `get_next_version_number`
return `-2`, so the computed next version can be less than 1. -/
theorem get_next_version_number_accepts_signed :
    (∀ (s : List Char) (n : Int), pyInt s = some n →
      get_next_version_number (some [⟨⟨'v' :: s⟩, true⟩]) = n + 1) ∧
    get_next_version_number (some [⟨"v-3", true⟩]) = -2 ∧
    get_next_version_number (some [⟨"v-3", true⟩]) < 1 := by
  refine ⟨?_, by decide, by decide⟩
  intro s n h
  simp [get_next_version_number, versionNumbers, versionNumberOf,
    List.filterMap, h]

/-- C10 (witness): the general statement applied at suffix `"-3"`. -/
theorem get_next_version_number_accepts_signed_witness :
    get_next_version_number (some [⟨⟨['v', '-', '3']⟩, true⟩]) = -3 + 1 :=
  get_next_version_number_accepts_signed.1 ['-', '3'] (-3) (by decide)

/-! ## The `Dependency` record and its identity invariant

Embeds the `Dependency` dataclass shared by `src/generate_sbom.py`
(lines 22–45), `src/backend/Athena/sbomGenerator.py` (lines 20–31) and the
other generators: `__eq__` and `__hash__` look only at `(name, version)`. -/

/-- A dependency record: name, optional version, and the provenance fields
that identity ignores. -/
structure Dependency where
  name : String
  version : Option String
  source : String
  file_path : String
deriving DecidableEq

/-- `Dependency.__eq__`: compare the `(name, version)` pairs. -/
def depEq (a b : Dependency) : Bool :=
  decide (a.name = b.name) && decide (a.version = b.version)

/-- The argument of `Dependency.__hash__`, which is
`hash((self.name, self.version))`: any hash function applied to this key
gives equal hashes for `__eq__`-equal records. -/
def depHashKey (d : Dependency) : String × Option String :=
  (d.name, d.version)

/-- Python `set.add` on a list representation of a `set[Dependency]`:
a record equal (under `__eq__`) to a present one is not added again. -/
def depSetAdd (s : List Dependency) (d : Dependency) : List Dependency :=
  if s.any (fun x => depEq x d) then s else s ++ [d]

/-- The `set` invariant: no two members are `__eq__`-equal. -/
def DepSetInv (s : List Dependency) : Prop :=
  s.Pairwise (fun a b => depEq a b = false)

theorem depEq_iff {a b : Dependency} :
    depEq a b = true ↔ (a.name, a.version) = (b.name, b.version) := by
  simp [depEq, Prod.ext_iff]

theorem depEq_symm_false {a b : Dependency} (h : depEq a b = false) :
    depEq b a = false := by
  simp only [depEq, Bool.and_eq_false_iff, decide_eq_false_iff_not] at h ⊢
  rcases h with h | h
  · exact Or.inl (fun e => h e.symm)
  · exact Or.inr (fun e => h e.symm)

/-! ### Claim theorem C8 -/

/-- C8: two `Dependency` records are `__eq__`-equal iff their
`(name, version)` pairs are equal exactly (source and file_path ignored);
`__eq__`-equal records have equal hash keys (hence equal hashes under any
hash function); `set.add` preserves the invariant that no two members share
a `(name, version)` pair, so a set never holds two records with identical
name and version, while two records with the same name and different
versions are distinct and can coexist after adding both. -/
theorem dependency_identity_invariant :
    (∀ a b : Dependency, depEq a b = true ↔
      (a.name, a.version) = (b.name, b.version)) ∧
    (∀ (a b : Dependency) (α : Type) (h : String × Option String → α),
      depEq a b = true → h (depHashKey a) = h (depHashKey b)) ∧
    (∀ a b : Dependency, a.name = b.name → a.version ≠ b.version →
      depEq a b = false) ∧
    (∀ (s : List Dependency) (d : Dependency), DepSetInv s →
      DepSetInv (depSetAdd s d)) ∧
    (∀ n : String, ∀ v₁ v₂ : Option String, v₁ ≠ v₂ →
      ∀ src₁ src₂ fp₁ fp₂,
      depSetAdd (depSetAdd [] ⟨n, v₁, src₁, fp₁⟩) ⟨n, v₂, src₂, fp₂⟩
        = [⟨n, v₁, src₁, fp₁⟩, ⟨n, v₂, src₂, fp₂⟩]) := by
  refine ⟨fun a b => depEq_iff, ?_, ?_, ?_, ?_⟩
  · intro a b α h he
    simp only [depHashKey]
    rw [depEq_iff.mp he]
  · intro a b _ hv
    simp [depEq, hv]
  · intro s d hinv
    unfold depSetAdd
    split
    · exact hinv
    · rename_i hnone
      simp only [List.any_eq_true, not_exists, not_and, Bool.not_eq_true] at hnone
      unfold DepSetInv
      rw [List.pairwise_append]
      refine ⟨hinv, List.pairwise_singleton _ _, ?_⟩
      intro a ha b hb
      rw [List.mem_singleton] at hb
      subst hb
      exact hnone a ha
  · intro n v₁ v₂ hv src₁ src₂ fp₁ fp₂
    simp [depSetAdd, depEq, hv]

/-- C8 (witness): the invariant-preservation and multi-version conjuncts
applied at concrete records: adding the same `(name, version)` twice keeps
one copy, adding the same name at a second version keeps both. -/
theorem dependency_identity_invariant_witness :
    DepSetInv (depSetAdd [⟨"Boost", some "1.82.0", "a", "b"⟩]
        ⟨"Boost", some "1.82.0", "c", "d"⟩) ∧
    depSetAdd (depSetAdd [] ⟨"Boost", some "1.82.0", "a", "b"⟩)
        ⟨"Boost", some "1.83.0", "c", "d"⟩
      = [⟨"Boost", some "1.82.0", "a", "b"⟩, ⟨"Boost", some "1.83.0", "c", "d"⟩] :=
  ⟨dependency_identity_invariant.2.2.2.1 _ _
      (List.pairwise_singleton _ _),
   dependency_identity_invariant.2.2.2.2 "Boost" (some "1.82.0")
      (some "1.83.0") (by decide) "a" "c" "b" "d"⟩

/-! ## Pinned-requirement parsers

Embeds `SBOMGenerator.parse_requirements_file` from `src/generate_sbom.py`
(lines 112–167) and `SBOMGenerator.parse_py_deps` from
`src/sbomGenerator.py` (lines 41–57). -/

/-- First-occurrence split, modelling Python `sep in line` plus
`line.split(sep, 1)` for a nonempty separator. -/
def splitOnceOn (sep : List Char) : List Char → Option (List Char × List Char)
  | [] => none
  | c :: cs =>
    match stripPrefixChars sep (c :: cs) with
    | some rest => some ([], rest)
    | none =>
      match splitOnceOn sep cs with
      | some (pre, post) => some (c :: pre, post)
      | none => none

/-- The character class `[A-Za-z0-9_-]` of the requirement regex. -/
def isReqNameChar (c : Char) : Bool :=
  (decide ('A' ≤ c) && decide (c ≤ 'Z')) ||
  (decide ('a' ≤ c) && decide (c ≤ 'z')) ||
  (decide ('0' ≤ c) && decide (c ≤ '9')) ||
  decide (c = '_') || decide (c = '-')

/-- The class `[=~<>!]` of the requirement regex. -/
def isReqOpChar (c : Char) : Bool :=
  decide (c = '=') || decide (c = '~') || decide (c = '<') ||
  decide (c = '>') || decide (c = '!')

/-- `re.match` of `^([A-Za-z0-9_-]+)(?:\[[^\]]*\])?([=~<>!]+)(.+)$` on a
stripped line, returning the three groups.  Greedy matching is
deterministic here because the three character classes and `[` are pairwise
disjoint; the one live backtracking path — `(.+)$` stealing the final
operator character when nothing follows the operator run — is the final
`match`. -/
def matchReqLine (l : List Char) : Option (List Char × List Char × List Char) :=
  let s1 := l.span isReqNameChar
  if s1.1.isEmpty then none
  else
    let rest2 :=
      match s1.2 with
      | '[' :: tl =>
        match (tl.span (fun c => !decide (c = ']'))).2 with
        | ']' :: tl2 => some tl2
        | _ => none
      | r => some r
    match rest2 with
    | none => none
    | some r2 =>
      let s2 := r2.span isReqOpChar
      match s2.2, s2.1 with
      | [], [] => none
      | [], [_] => none
      | [], g2 => some (s1.1, g2.dropLast, [g2.getLast!])
      | _ , [] => none
      | g3, g2 => some (s1.1, g2, g3)

/-- The version cleanup of `parse_requirements_file`: strip group 3, then
`re.sub(r'\s*#.*$', '', …)` (drop everything from the whitespace run
preceding the first `#`), then strip again. -/
def cleanVersionSpec (g3 : List Char) : List Char :=
  let v := pyStrip g3
  if v.isEmpty then v
  else pyStrip (v.takeWhile (fun c => !decide (c = '#')))

/-- One loop iteration of `parse_requirements_file`: the records the line
adds.  Blank and `#`-comment lines are skipped; a regex match yields a
record whose version is the *operator concatenated with the cleaned
version* (or `None` if the cleaned version is empty, per
`f"{operator}{version_spec}" if version_spec else None`), and `__post_init__`
strips the version; a non-matching line yields a name-only record from
`line.split('#')[0].strip()` when nonempty. -/
def parse_requirements_line (fp : String) (line : List Char) : List Dependency :=
  let l := pyStrip line
  if l.isEmpty then []
  else if l.head? = some '#' then []
  else
    match matchReqLine l with
    | some (g1, g2, g3) =>
      let vclean := cleanVersionSpec g3
      [⟨⟨g1⟩,
        if vclean.isEmpty then none else some ⟨pyStrip (g2 ++ vclean)⟩,
        "requirements.txt", fp⟩]
    | none =>
      let nm := pyStrip (l.takeWhile (fun c => !decide (c = '#')))
      if nm.isEmpty then [] else [⟨⟨nm⟩, none, "requirements.txt", fp⟩]

/-- `parse_requirements_file`: split the content on newlines, process each
line, add each produced record to the dependency set.  `none` content
models the `except`-logged unreadable/absent file: the set is unchanged. -/
def parse_requirements_file (fp : String) (content : Option (List Char))
    (deps : List Dependency) : List Dependency :=
  match content with
  | none => deps
  | some text =>
    (splitLines text).foldl
      (fun acc line => (parse_requirements_line fp line).foldl depSetAdd acc) deps

/-- One loop iteration of `parse_py_deps` (`src/sbomGenerator.py`): skip
blank lines; split at the first `"=="` into name and version when present;
otherwise record the whole stripped line as a versionless name (comment
lines are *not* skipped by this parser). -/
def parse_py_deps_line (line : List Char) : List Dependency :=
  let l := pyStrip line
  if l.isEmpty then []
  else
    match splitOnceOn ['=', '='] l with
    | some (nm, ver) => [⟨⟨pyStrip nm⟩, some ⟨pyStrip ver⟩, "pyDep.txt", ""⟩]
    | none => [⟨⟨l⟩, none, "pyDep.txt", ""⟩]

/-- `parse_py_deps`: iterate the file's lines adding records to the
dependency set; `none` models the missing `pyDep.txt` (logged, unchanged
set). -/
def parse_py_deps (content : Option (List Char))
    (deps : List Dependency) : List Dependency :=
  match content with
  | none => deps
  | some text =>
    (splitLines text).foldl
      (fun acc line => (parse_py_deps_line line).foldl depSetAdd acc) deps

/-! ### Claim theorems C5 -/

/-- C5 (counterexample): on the pinned input
`"numpy==1.26.4\nrequests>=2.0\n# comment\n\n"` neither requirement parser
behaves as claimed: `parse_requirements_file` yields no record with name
`numpy` and version `1.26.4` (its version keeps the operator:
`==1.26.4`), and `parse_py_deps` yields a record for the comment line and
no record named `requests`. -/
theorem requirement_parser_counterexample :
    (¬ ∃ d ∈ parse_requirements_file "req.txt"
        (some "numpy==1.26.4\nrequests>=2.0\n# comment\n\n".data) [],
        d.name = "numpy" ∧ d.version = some "1.26.4") ∧
    (∃ d ∈ parse_py_deps
        (some "numpy==1.26.4\nrequests>=2.0\n# comment\n\n".data) [],
        d.name = "# comment") ∧
    (¬ ∃ d ∈ parse_py_deps
        (some "numpy==1.26.4\nrequests>=2.0\n# comment\n\n".data) [],
        d.name = "requests") := by
  decide

/-- C5 (amended): on the pinned input the two parsers yield exactly the
following records.  `parse_requirements_file` skips the comment and blank
lines and yields `numpy` at version `==1.26.4` (the operator is prepended
to the version) and `requests` at version `>=2.0`; `parse_py_deps`
supports only `==`, yielding `numpy` at `1.26.4`, and records the full
texts `requests>=2.0` and `# comment` as versionless names. -/
theorem requirement_parser_outputs :
    parse_requirements_file "req.txt"
        (some "numpy==1.26.4\nrequests>=2.0\n# comment\n\n".data) []
      = [⟨"numpy", some "==1.26.4", "requirements.txt", "req.txt"⟩,
         ⟨"requests", some ">=2.0", "requirements.txt", "req.txt"⟩] ∧
    parse_py_deps (some "numpy==1.26.4\nrequests>=2.0\n# comment\n\n".data) []
      = [⟨"numpy", some "1.26.4", "pyDep.txt", ""⟩,
         ⟨"requests>=2.0", none, "pyDep.txt", ""⟩,
         ⟨"# comment", none, "pyDep.txt", ""⟩] := by
  decide

/-! ## Build-manifest Boost extraction

Embeds the Boost iteration of `SBOMGenerator.parse_cmakelists` from
`src/AnalysisBase/sbomGenerator.py` (lines 82–110): pattern
`/sources/boost_([0-9_]+)\.tar\.gz;` searched line by line, first matching
line wins, and the captured Boost version has `_` replaced by `.`
(`version.replace("_", ".")`). -/

/-- The class `[0-9_]` of the Boost pattern. -/
def isBoostVerChar (c : Char) : Bool :=
  (decide ('0' ≤ c) && decide (c ≤ '9')) || decide (c = '_')

/-- Try the Boost regex anchored at this position.  Greedy `([0-9_]+)` is
deterministic: the class excludes `'.'`, so a shortened capture would leave
a class character where `\.tar\.gz;` needs `'.'`. -/
def matchBoostAt (l : List Char) : Option (List Char) :=
  match stripPrefixChars "/sources/boost_".data l with
  | none => none
  | some rest =>
    let s := rest.span isBoostVerChar
    if s.1.isEmpty then none
    else if startsWithChars ".tar.gz;".data s.2 then some s.1 else none

/-- `re.search` of the Boost pattern: leftmost position whose anchored
match succeeds. -/
def searchBoost : List Char → Option (List Char)
  | [] => none
  | c :: cs =>
    match matchBoostAt (c :: cs) with
    | some g => some g
    | none => searchBoost cs

/-- The Boost loop of `parse_cmakelists`: scan the manifest lines in order,
`break` at the first line the pattern matches, and normalise the capture
with `replace("_", ".")`. -/
def parse_cmakelists_boost (lines : List (List Char)) : Option String :=
  match lines with
  | [] => none
  | line :: rest =>
    match searchBoost line with
    | some ver => some ⟨ver.map (fun c => if c = '_' then '.' else c)⟩
    | none => parse_cmakelists_boost rest

/-! ### Claim theorems C6 -/

/-- C6 (counterexample): a build-manifest text that contains
`".../sources/boost_1_82_0.tar.gz;"` but whose *earlier* line already
matches the Boost pattern records that earlier capture, not `1_82_0`:
the recorded version is `7`, not `1.82.0`. -/
theorem boost_pattern_counterexample :
    (".../sources/boost_1_82_0.tar.gz;".data).IsInfix
      ("/sources/boost_7.tar.gz;\n.../sources/boost_1_82_0.tar.gz;".data) ∧
    parse_cmakelists_boost
      (splitLines "/sources/boost_7.tar.gz;\n.../sources/boost_1_82_0.tar.gz;".data)
      ≠ some "1.82.0" ∧
    parse_cmakelists_boost
      (splitLines "/sources/boost_7.tar.gz;\n.../sources/boost_1_82_0.tar.gz;".data)
      = some "7" := by
  refine ⟨⟨"/sources/boost_7.tar.gz;\n".data, [], by decide⟩, by decide, by decide⟩

/-- C6 (amended): when the line holding
`".../sources/boost_1_82_0.tar.gz;"` is the first line on which the Boost
pattern matches, the pattern captures `1_82_0` and the underscore-to-dot
normalisation records `1.82.0`. -/
theorem boost_pattern_first_match (pre rest : List (List Char))
    (h : ∀ l ∈ pre, searchBoost l = none) :
    parse_cmakelists_boost (pre ++ ".../sources/boost_1_82_0.tar.gz;".data :: rest)
      = some "1.82.0" := by
  induction pre with
  | nil =>
    have h1 : searchBoost ".../sources/boost_1_82_0.tar.gz;".data
        = some "1_82_0".data := by decide
    rw [List.nil_append]
    unfold parse_cmakelists_boost
    rw [h1]
    rfl
  | cons l pre ih =>
    have hl : searchBoost l = none := h l (by simp)
    rw [List.cons_append]
    unfold parse_cmakelists_boost
    rw [hl]
    exact ih (fun l' hl' => h l' (by simp [hl']))

/-- C6 (witness): the amended theorem applied with one non-matching line
before the Boost line. -/
theorem boost_pattern_first_match_witness :
    parse_cmakelists_boost
      (["# find Boost".data] ++ ".../sources/boost_1_82_0.tar.gz;".data :: [])
      = some "1.82.0" :=
  boost_pattern_first_match ["# find Boost".data] [] (by decide)

/-! ## Missing-package reconciliation

Embeds `SBOMGenerator.find_missing_packages` from
`src/backend/Athena/sbomGenerator.py` (lines 199–235).  The discovered LCG
packages dict is an association list of (name, version) pairs; only key
membership is observed. -/

/-- The fixed alias table `name_mappings`. -/
def name_mappings : List (String × String) := [("nlohmann_json", "jsonmcpp")]

/-- Python `str.lower()` (ASCII scope, matching `String.toLower`). -/
def pyLower (s : String) : String := s.toLower

/-- `pkg in lcg_packages`: exact key membership. -/
def lcgHasKey (lcg : List (String × String)) (pkg : String) : Bool :=
  lcg.any (fun kv => decide (kv.1 = pkg))

/-- `pkg.lower() in lcg_packages_lower` where
`lcg_packages_lower = {k.lower(): v for k, v in lcg_packages.items()}`:
case-insensitive key membership. -/
def lcgHasKeyCI (lcg : List (String × String)) (pkg : String) : Bool :=
  lcg.any (fun kv => decide (pyLower kv.1 = pyLower pkg))

/-- The per-package `found` test of `find_missing_packages`: exact match,
then case-insensitive match, then the alias table's mapped name tried
exactly and case-insensitively. -/
def packageFound (lcg : List (String × String)) (pkg : String) : Bool :=
  lcgHasKey lcg pkg ||
  lcgHasKeyCI lcg pkg ||
  (match name_mappings.lookup pkg with
   | some mapped => lcgHasKey lcg mapped || lcgHasKeyCI lcg mapped
   | none => false)

/-- `find_missing_packages(build_packages, lcg_packages)`: the loop appends
each package not found by any of the three strategies to `missing`. -/
def find_missing_packages (build_packages : List String)
    (lcg_packages : List (String × String)) : List String :=
  build_packages.foldl
    (fun missing pkg =>
      if packageFound lcg_packages pkg then missing else missing ++ [pkg])
    []

/-- The specification's matcher, written from the spec's words: an expected
name is matched when some discovered key equals it exactly, or equals it
case-insensitively, or the alias table maps it to a name that some
discovered key equals exactly or case-insensitively. -/
def MatchedBySpec (lcg : List (String × String)) (pkg : String) : Prop :=
  (∃ kv ∈ lcg, kv.1 = pkg) ∨
  (∃ kv ∈ lcg, pyLower kv.1 = pyLower pkg) ∨
  (∃ mapped, name_mappings.lookup pkg = some mapped ∧
    ((∃ kv ∈ lcg, kv.1 = mapped) ∨ (∃ kv ∈ lcg, pyLower kv.1 = pyLower mapped)))

theorem packageFound_iff_matched (lcg : List (String × String)) (pkg : String) :
    packageFound lcg pkg = true ↔ MatchedBySpec lcg pkg := by
  unfold packageFound MatchedBySpec lcgHasKey lcgHasKeyCI
  cases h : name_mappings.lookup pkg with
  | none =>
    simp [List.any_eq_true, h]
  | some mapped =>
    simp only [h, Bool.or_eq_true, List.any_eq_true, decide_eq_true_eq,
      Option.some.injEq]
    constructor
    · rintro ((h1 | h2) | h3)
      · exact Or.inl h1
      · exact Or.inr (Or.inl h2)
      · exact Or.inr (Or.inr ⟨mapped, rfl, by simpa using h3⟩)
    · rintro (h1 | h2 | ⟨m, hm, h3⟩)
      · exact Or.inl (Or.inl h1)
      · exact Or.inl (Or.inr h2)
      · subst hm
        exact Or.inr (by simpa using h3)

/-- The `missing` accumulator is a filter of the scanned packages. -/
theorem find_missing_foldl_eq_filter (lcg : List (String × String)) :
    ∀ (pkgs : List String) (acc : List String),
    pkgs.foldl
      (fun missing pkg =>
        if packageFound lcg pkg then missing else missing ++ [pkg]) acc
      = acc ++ pkgs.filter (fun pkg => !packageFound lcg pkg)
  | [], acc => by simp
  | p :: ps, acc => by
    by_cases h : packageFound lcg p
    · simp [List.foldl_cons, h, find_missing_foldl_eq_filter lcg ps acc,
        List.filter_cons]
    · simp only [List.foldl_cons, if_neg h,
        find_missing_foldl_eq_filter lcg ps (acc ++ [p]), List.filter_cons]
      simp [h]

/-! ### Claim theorem C7 -/

/-- C7: `find_missing_packages` classifies an expected name as missing iff
it occurs in the expected list and no strategy — exact key match,
case-insensitive key match, or alias-table lookup tried exactly and
case-insensitively — matches it against the discovered mapping; every name
matched by one of the three strategies is excluded from the missing list. -/
theorem find_missing_packages_spec (build_packages : List String)
    (lcg_packages : List (String × String)) (pkg : String) :
    pkg ∈ find_missing_packages build_packages lcg_packages ↔
      (pkg ∈ build_packages ∧ ¬ MatchedBySpec lcg_packages pkg) := by
  unfold find_missing_packages
  rw [find_missing_foldl_eq_filter, List.nil_append, List.mem_filter]
  simp only [Bool.not_eq_true', ← packageFound_iff_matched,
    Bool.not_eq_true]

/-! ## Build-log parsing

Embeds `SBOMGenerator.parse_build_info` from
`src/backend/Athena/sbomGenerator.py` (lines 41–119) and the two
build-info re-derivation functions of `src/backend/Athena/version_sbom.py`:
`parse_build_info_from_file` (lines 48–93) and
`parse_build_info_from_markdown` (lines 14–46).

A build log is a list of physical lines (without trailing newlines — every
access strips the line first, so the trailing `'\n'` of `readlines()` is
immaterial); `none` models an absent file. -/

/-- `re.search` of `lit(.+)` in a line: the remainder after the first
occurrence of the literal, when nonempty.  Deterministic because `(.+)$`
runs to the end of the line. -/
def searchCapture (lit : List Char) : List Char → Option (List Char)
  | [] => none
  | c :: cs =>
    match stripPrefixChars lit (c :: cs) with
    | some rest => if rest.isEmpty then searchCapture lit cs else some rest
    | none => searchCapture lit cs

/-- `sub in line` for a nonempty substring. -/
def containsSub (sub l : List Char) : Bool :=
  (splitOnceOn sub l).isSome

/-- The LCG release regex
`LCG release "LCG_([^"]+)" for platform: (.+)` anchored at one position.
Greedy `[^"]+` is deterministic: the class excludes `'"'`. -/
def matchLcgAt (l : List Char) : Option (List Char × List Char) :=
  match stripPrefixChars "LCG release \"LCG_".data l with
  | none => none
  | some rest =>
    let s := rest.span (fun c => !decide (c = '"'))
    if s.1.isEmpty then none
    else
      match stripPrefixChars "\" for platform: ".data s.2 with
      | none => none
      | some rest2 => if rest2.isEmpty then none else some (s.1, rest2)

/-- `re.search` of the LCG release regex in a line. -/
def searchLcg : List Char → Option (List Char × List Char)
  | [] => none
  | c :: cs =>
    match matchLcgAt (c :: cs) with
    | some r => some r
    | none => searchLcg cs

/-- The package-filter regex `--\s+\+\s+External/(.+)` anchored at one
position: the whitespace runs are deterministic because neither `'+'` nor
`'E'` is whitespace. -/
def matchPkgFilterAt (l : List Char) : Option (List Char) :=
  match stripPrefixChars "--".data l with
  | none => none
  | some r1 =>
    let s1 := r1.span Char.isWhitespace
    if s1.1.isEmpty then none
    else
      match s1.2 with
      | '+' :: r2 =>
        let s2 := r2.span Char.isWhitespace
        if s2.1.isEmpty then none
        else
          match stripPrefixChars "External/".data s2.2 with
          | none => none
          | some rest => if rest.isEmpty then none else some rest
      | _ => none

/-- `re.search` of the package-filter regex in a line. -/
def searchPkgFilter : List Char → Option (List Char)
  | [] => none
  | c :: cs =>
    match matchPkgFilterAt (c :: cs) with
    | some r => some r
    | none => searchPkgFilter cs

/-- Apply a per-line matcher to each stripped line in order and keep the
first success (the `for line in lines: … break` loops). -/
def firstLineSome {α : Type} (f : List Char → Option α) : List String → Option α
  | [] => none
  | l :: ls =>
    match f (pyStrip l.data) with
    | some r => some r
    | none => firstLineSome f ls

/-- State of the package-filtering-rules section scan. -/
structure PkgScanState where
  inSection : Bool
  packages : List String
  stopped : Bool

/-- One iteration of the package-filtering-rules loop of
`parse_build_info`: the marker line opens the section; inside it,
`-- Configuring`, a blank line after at least one package, or a `--   -`
exclusion line ends it; matching lines append `External/…` names. -/
def pkgScanStep (st : PkgScanState) (line : String) : PkgScanState :=
  if st.stopped then st
  else
    let l := pyStrip line.data
    if containsSub "Package filtering rules read:".data l then
      { st with inSection := true }
    else if st.inSection then
      if startsWithChars "-- Configuring".data l ||
          (l.isEmpty && !st.packages.isEmpty) then
        { st with stopped := true }
      else
        match searchPkgFilter l with
        | some pkg => { st with packages := st.packages ++ [⟨pyStrip pkg⟩] }
        | none =>
          if startsWithChars "--   -".data l then { st with stopped := true }
          else st
    else st

/-- The result dict of `parse_build_info`: every key is initialised (to
`None` / `[]`), so the markdown renderer always finds all of them. -/
structure BuildInfoResult where
  lcg_version : Option String
  platform : Option String
  packages : List String
  cCompiler : Option String
  cxxCompiler : Option String
  platformName : Option String
deriving DecidableEq

/-- `parse_build_info(build_txt_path)`: C compiler from line 0, CXX
compiler from line 1, first LCG release line, first `Using platform name:`
line, and the package-filtering-rules section.  An absent file returns the
all-empty result. -/
def parse_build_info (file : Option (List String)) : BuildInfoResult :=
  match file with
  | none => ⟨none, none, [], none, none, none⟩
  | some lines =>
    let cComp := match lines.head? with
      | some l0 =>
        (searchCapture "The C compiler identification is ".data
          (pyStrip l0.data)).map (fun v => (⟨v⟩ : String))
      | none => none
    let cxxComp := match lines.get? 1 with
      | some l1 =>
        (searchCapture "The CXX compiler identification is ".data
          (pyStrip l1.data)).map (fun v => (⟨v⟩ : String))
      | none => none
    let lcg := firstLineSome searchLcg lines
    let plat := firstLineSome
      (searchCapture "Using platform name: ".data) lines
    let pkgs := (lines.foldl pkgScanStep ⟨false, [], false⟩).packages
    { lcg_version := lcg.map (fun r => (⟨r.1⟩ : String))
      platform := lcg.map (fun r => (⟨r.2⟩ : String))
      packages := pkgs
      cCompiler := cComp
      cxxCompiler := cxxComp
      platformName := plat.map (fun v => (⟨v⟩ : String)) }

/-- `parse_build_info_from_file` (`version_sbom.py` lines 48–93): same
sources, but the platform name is read from line index 24 only, and the
result dict holds only the keys that matched — including, when the LCG
release line is present, *both* `lcg_version` and the lowercase
`platform` key. -/
def parse_build_info_from_file (file : Option (List String)) :
    List (String × String) :=
  match file with
  | none => []
  | some lines =>
    (match lines.head? with
     | some l0 =>
       match searchCapture "The C compiler identification is ".data
           (pyStrip l0.data) with
       | some v => [("C Compiler", (⟨v⟩ : String))]
       | none => []
     | none => []) ++
    (match lines.get? 1 with
     | some l1 =>
       match searchCapture "The CXX compiler identification is ".data
           (pyStrip l1.data) with
       | some v => [("CXX Compiler", (⟨v⟩ : String))]
       | none => []
     | none => []) ++
    (match lines.get? 24 with
     | some l24 =>
       match searchCapture "Using platform name: ".data (pyStrip l24.data) with
       | some v => [("Platform", (⟨v⟩ : String))]
       | none => []
     | none => []) ++
    (match firstLineSome searchLcg lines with
     | some r => [("lcg_version", (⟨r.1⟩ : String)), ("platform", (⟨r.2⟩ : String))]
     | none => [])

/-! ## Narrative report rendering and re-parsing

Embeds `generate_markdown_report` from
`src/backend/Athena/sbomGenerator.py` (lines 401–435) and the table
re-parser `parse_build_info_from_markdown` from
`src/backend/Athena/version_sbom.py` (lines 14–46). -/

/-- Python `"\n".join(md)` producing the report text. -/
def joinLines : List String → List Char
  | [] => []
  | [l] => l.data
  | l :: ls => l.data ++ '\n' :: joinLines ls

/-- `dep.version or "undefined"`: `None` and the empty string are falsy. -/
def pyOrUndefined : Option String → String
  | some s => if s.isEmpty then "undefined" else s
  | none => "undefined"

/-- `f"{value}"` on an optional value: `None` prints as `"None"`. -/
def pyStrOpt : Option String → String
  | some s => s
  | none => "None"

/-- `sorted(deps, key=lambda x: x.name.lower())`: stable, compares the
lowercased names code-point lexicographically. -/
def depLE (a b : Dependency) : Prop :=
  lexLe (pyLower a.name).data (pyLower b.name).data = true

instance : DecidableRel depLE := fun a b => by
  unfold depLE; infer_instance

/-- Dependencies sorted case-insensitively by name (stable insertion
sort, matching Python's stable `sorted`). -/
def sortDepsByName (deps : List Dependency) : List Dependency :=
  deps.insertionSort depLE

/-- The Build Information section of the Athena markdown report: the
generator's result dict always holds all four keys, so all four rows are
always written; a `None` value prints as the text `None`. -/
def buildInfoSection (bi : BuildInfoResult) : List String :=
  ["## Build Information\n",
   "| Component | Version/Specification |",
   "|-----------|-----------------------|",
   "| C Compiler | " ++ pyStrOpt bi.cCompiler ++ " |",
   "| CXX Compiler | " ++ pyStrOpt bi.cxxCompiler ++ " |",
   "| Platform | " ++ pyStrOpt bi.platformName ++ " |",
   "| LCG Version | " ++ pyStrOpt bi.lcg_version ++ " |",
   ""]

/-- `generate_markdown_report(athena_version, build_info)`: title,
timestamp, count, optional build-information table, source-versions table,
and the dependency table sorted case-insensitively by name. -/
def generate_markdown_report (ts athena_version : String)
    (deps : List Dependency) (build_info : Option BuildInfoResult) :
    List String :=
  ["# Athena SBOM Report\n",
   "**Generated on:** " ++ ts,
   "**Total dependencies:** " ++ toString deps.length ++ "\n"] ++
  (match build_info with
   | some bi => buildInfoSection bi
   | none => []) ++
  ["## Source Versions\n",
   "| Source | Version |",
   "|--------|---------|",
   "| Athena | " ++ athena_version ++ " |\n"] ++
  (if deps.isEmpty then []
   else
    ["## All Dependencies\n",
     "| Package | Version |",
     "|---------|---------|"] ++
    (sortDepsByName deps).map
      (fun d => "| " ++ d.name ++ " | " ++ pyOrUndefined d.version ++ " |") ++
    [""])

/-- The table-row regex `\|\s*LABEL\s*\|\s*(.+?)\s*\|` anchored at one
position, exact for single-line rows whose cell value is nonempty and free
of `'|'` (the shape every generated report row has): `'|'`, whitespace,
the label, whitespace, `'|'`, then the cell content up to the closing
`'|'` on the same line, trimmed. -/
def matchRowAt (label : List Char) (l : List Char) : Option (List Char) :=
  match l with
  | '|' :: r1 =>
    match stripPrefixChars label (r1.dropWhile Char.isWhitespace) with
    | none => none
    | some r2 =>
      match r2.dropWhile Char.isWhitespace with
      | '|' :: r3 =>
        let s := (r3.dropWhile Char.isWhitespace).span
          (fun c => !decide (c = '|') && !decide (c = '\n'))
        let capture := rtrimWs s.1
        if capture.isEmpty then none
        else
          match s.2 with
          | '|' :: _ => some capture
          | _ => none
      | _ => none
  | _ => none

/-- `re.search` of the table-row regex over the whole report text. -/
def searchRow (label : List Char) : List Char → Option (List Char)
  | [] => none
  | c :: cs =>
    match matchRowAt label (c :: cs) with
    | some r => some r
    | none => searchRow label cs

/-- `parse_build_info_from_markdown(md_file)`: re-derive the build info
dict from the narrative report's build-information table.  Only the four
rendered labels are recovered — the lowercase `platform` key that
`parse_build_info_from_file` emits has no row and can never reappear. -/
def parse_build_info_from_markdown (md_file : Option (List Char)) :
    List (String × String) :=
  match md_file with
  | none => []
  | some content =>
    (match searchRow "C Compiler".data content with
     | some v => [("C Compiler", (⟨pyStrip v⟩ : String))]
     | none => []) ++
    (match searchRow "CXX Compiler".data content with
     | some v => [("CXX Compiler", (⟨pyStrip v⟩ : String))]
     | none => []) ++
    (match searchRow "Platform".data content with
     | some v => [("Platform", (⟨pyStrip v⟩ : String))]
     | none => []) ++
    (match searchRow "LCG Version".data content with
     | some v => [("lcg_version", (⟨pyStrip v⟩ : String))]
     | none => [])

/-! ## The version gate (`main()` of `version_sbom.py`) -/

/-- One committed version directory: its number and the two artifacts. -/
structure VersionDir where
  version : Int
  sbomJson : SbomData
  sbomMd : Option (List Char)

/-- The most-recent-version scan of `main()`: `max_version` starts at 0
and `most_recent_dir` at `None`; strictly greater versions win. -/
def findMostRecent (dirs : List VersionDir) : Int × Option VersionDir :=
  dirs.foldl
    (fun acc d => if acc.1 < d.version then (d.version, some d) else acc)
    (0, none)

/-- `main()` of `src/backend/Athena/version_sbom.py` (lines 147–214),
applied to a freshly generated candidate manifest and report: compute the
new signature from the build log, re-derive the stored run's build info
from its markdown report and compute its signature; on equality discard
the candidates (no directory is created), otherwise commit
`v(max_version + 1)`. -/
def version_sbom_main (buildLines : Option (List String)) (sbom : SbomData)
    (md : List Char) (dirs : List VersionDir) : List VersionDir :=
  let new_signature :=
    get_sbom_signature sbom (parse_build_info_from_file buildLines)
  let r := findMostRecent dirs
  match r.2 with
  | some recent =>
    let recent_signature := get_sbom_signature recent.sbomJson
      (parse_build_info_from_markdown recent.sbomMd)
    if recent_signature = new_signature then dirs
    else dirs ++ [⟨r.1 + 1, sbom, some md⟩]
  | none => dirs ++ [⟨r.1 + 1, sbom, some md⟩]

/-- The manifest document `generate_cyclonedx_sbom` produces, restricted
to the fields the signature reads plus the encoder's volatile timestamp:
components are the dependencies sorted case-insensitively by name with
`version or "undefined"`, and the metadata carries the single `Athena`
version property. -/
def athena_sbom_json (ts : String) (deps : List Dependency) : SbomData where
  components := (sortDepsByName deps).map
    (fun d => ⟨some d.name, some (pyOrUndefined d.version)⟩)
  metadata := ⟨some ts, [⟨some "Athena", some "24.0"⟩]⟩

/-- One full Athena generation run on fixed inputs: parse the build log,
regenerate the manifest and the narrative report (only the embedded
timestamp varies between runs), then run the version gate. -/
def athena_generation_run (buildLines : Option (List String))
    (deps : List Dependency) (ts : String) (dirs : List VersionDir) :
    List VersionDir :=
  version_sbom_main buildLines (athena_sbom_json ts deps)
    (joinLines (generate_markdown_report ts "24.0" deps
      (some (parse_build_info buildLines))))
    dirs

/-! ### Claim theorem C1 -/

/-- A minimal fully-regular Athena build log: compiler identifications on
lines 0 and 1, the platform name on line index 24, and the LCG release
line (which `generate()` requires before it writes any artifact). -/
def athenaBuildLog : List String :=
  ["The C compiler identification is GNU 13.1.0",
   "The CXX compiler identification is GNU 13.1.0"] ++
  List.replicate 22 "-- filler" ++
  ["Using platform name: x86_64-el9-gcc13-opt",
   "LCG release \"LCG_106b_ATLAS_1\" for platform: x86_64-el9-gcc13-opt"]

/-- A one-element dependency set for the generation runs. -/
def athenaDeps : List Dependency :=
  [⟨"numpy", some "1.26.4", "LCG Website", ""⟩]

/-- C1: the idempotence claim fails on the code — it is a bug, not the
spec's error.  With every input source fixed, the first run commits `v1`,
but the second run is *not* reported as a duplicate and commits `v2`:
`parse_build_info_from_file` emits the lowercase `platform` key whenever
the LCG release line is present (which generation requires), while the
narrative report's build-information table only persists the four rows
`C Compiler`, `CXX Compiler`, `Platform`, `LCG Version`, so
`parse_build_info_from_markdown` can never recover `platform` and the two
signatures always differ. -/
theorem athena_versioning_not_idempotent :
    (athena_generation_run (some athenaBuildLog) athenaDeps
        "2025-01-01 00:00:00" []).length = 1 ∧
    (athena_generation_run (some athenaBuildLog) athenaDeps
        "2025-01-02 00:00:00"
        (athena_generation_run (some athenaBuildLog) athenaDeps
          "2025-01-01 00:00:00" [])).length = 2 ∧
    ("platform", "x86_64-el9-gcc13-opt")
        ∈ parse_build_info_from_file (some athenaBuildLog) ∧
    (∀ kv ∈ parse_build_info_from_markdown
        (some (joinLines (generate_markdown_report "2025-01-01 00:00:00"
          "24.0" athenaDeps (some (parse_build_info (some athenaBuildLog)))))),
      kv.1 ≠ "platform") := by
  decide

/-! ### Claim theorem C9 -/

/-- C9: parsers degrade instead of failing.  Every embedded parser is a
total Lean function over all input strings (the Python bodies either guard
file access with an existence check or wrap it in try/except, and the
per-line processing only strips, splits and pattern-matches).  When the
target file is absent (`none`) each parser returns its empty or all-empty
result and leaves the dependency set unchanged; blank lines (and, for the
requirement parser, comment lines) yield no record; a log with no matching
pattern on any line produces the all-empty build info. -/
theorem parsers_handle_missing_and_malformed :
    parse_build_info none = ⟨none, none, [], none, none, none⟩ ∧
    parse_build_info_from_file none = [] ∧
    parse_build_info_from_markdown none = [] ∧
    (∀ deps, parse_py_deps none deps = deps) ∧
    (∀ fp deps, parse_requirements_file fp none deps = deps) ∧
    (∀ line, pyStrip line = [] → parse_py_deps_line line = []) ∧
    (∀ (fp : String) (line : List Char),
      pyStrip line = [] ∨ (pyStrip line).head? = some '#' →
      parse_requirements_line fp line = []) ∧
    parse_build_info
      (some ["@@ not a build log @@", "%% malformed %%", "(no patterns)"])
      = ⟨none, none, [], none, none, none⟩ := by
  refine ⟨rfl, rfl, rfl, fun _ => rfl, fun _ _ => rfl, ?_, ?_, by decide⟩
  · intro line h
    simp [parse_py_deps_line, h]
  · intro fp line h
    rcases h with h | h
    · simp [parse_requirements_line, h]
    · have hne : (pyStrip line).isEmpty = false := by
        cases hl : pyStrip line with
        | nil => rw [hl] at h; cases h
        | cons a l => rfl
      simp [parse_requirements_line, hne, h]

/-- C9 (witness): a comment-only line yields no requirement record. -/
theorem parsers_handle_missing_and_malformed_witness :
    parse_requirements_line "req.txt" "# only a comment".data = [] :=
  parsers_handle_missing_and_malformed.2.2.2.2.2.2.1
    "req.txt" "# only a comment".data (Or.inr (by decide))

end CernAtlasSBOM
